import Mathlib

/-!
Verification development for the xfetch repository: a WebSocket broker
(`socket-server.js`) relaying fetch requests from requester clients
(`xfetch.js`) to browser-extension executors, plus the requester-side
client core.  The JavaScript sources are shallowly embedded below:
JS `Map`s become association lists (insertion order preserved, as JS
Maps guarantee), timer callbacks become explicit events/steps, and
`Date.now()` values are explicit `Nat` parameters.
-/

namespace Xfetch

/-! ### Association lists (JS `Map` semantics)

JS `Map.set` replaces the value in place for an existing key (keeping its
iteration position) and appends fresh keys at the end; `Map.delete` removes
the key; `Map.get` returns the value or `undefined`.  Iteration order is
insertion order, which matters for executor selection. -/

def alGet {κ α : Type} [DecidableEq κ] (k : κ) : List (κ × α) → Option α
  | [] => none
  | p :: rest => if p.1 = k then some p.2 else alGet k rest

def alSet {κ α : Type} [DecidableEq κ] (k : κ) (v : α) : List (κ × α) → List (κ × α)
  | [] => [(k, v)]
  | p :: rest => if p.1 = k then (k, v) :: rest else p :: alSet k v rest

def alErase {κ α : Type} [DecidableEq κ] (k : κ) (l : List (κ × α)) : List (κ × α) :=
  l.filter (fun p => p.1 ≠ k)

theorem alGet_alSet_self {κ α : Type} [DecidableEq κ] (k : κ) (v : α) (l : List (κ × α)) :
    alGet k (alSet k v l) = some v := by
  induction l with
  | nil => simp [alGet, alSet]
  | cons p rest ih =>
    by_cases h : p.1 = k
    · simp [alSet, alGet, h]
    · simp [alSet, alGet, h, ih]

theorem alGet_alSet_ne {κ α : Type} [DecidableEq κ] (k k' : κ) (v : α) (l : List (κ × α))
    (h : k ≠ k') : alGet k' (alSet k v l) = alGet k' l := by
  induction l with
  | nil => simp [alGet, alSet, h]
  | cons p rest ih =>
    by_cases hp : p.1 = k
    · simp [alSet, alGet, hp, h]
    · simp only [alSet, hp, if_neg hp, alGet]
      by_cases hp' : p.1 = k'
      · simp [hp']
      · simp [hp', ih]

theorem alGet_alErase_self {κ α : Type} [DecidableEq κ] (k : κ) (l : List (κ × α)) :
    alGet k (alErase k l) = none := by
  induction l with
  | nil => simp [alGet, alErase]
  | cons p rest ih =>
    by_cases h : p.1 = k
    · simpa [alErase, alGet, h] using ih
    · simpa [alErase, alGet, h] using ih

theorem alGet_alErase_ne {κ α : Type} [DecidableEq κ] (k k' : κ) (l : List (κ × α))
    (h : k ≠ k') : alGet k' (alErase k l) = alGet k' l := by
  induction l with
  | nil => simp [alGet, alErase]
  | cons p rest ih =>
    have h' : ¬ (k' = k) := fun hk => h hk.symm
    by_cases hp : p.1 = k
    · have hp' : ¬ p.1 = k' := by simpa [hp] using h
      simpa [alErase, alGet, hp, hp', h, h'] using ih
    · by_cases hp' : p.1 = k'
      · simp [alErase, alGet, hp, hp', h, h', List.filter]
      · simpa [alErase, alGet, hp, hp', h, h', List.filter] using ih

theorem alGet_filter {κ α : Type} [DecidableEq κ] (k : κ) (v : α) (p : α → Bool)
    (l : List (κ × α)) (hget : alGet k l = some v) (hp : p v = true) :
    alGet k (l.filter (fun x => p x.2)) = some v := by
  induction l with
  | nil => simp [alGet] at hget
  | cons q rest ih =>
    by_cases hq : q.1 = k
    · have hv : q.2 = v := by simpa [alGet, hq] using hget
      subst hv
      simp [List.filter, hp, alGet, hq]
    · have hget' : alGet k rest = some v := by simpa [alGet, hq] using hget
      by_cases hpq : p q.2
      · simpa [List.filter, hpq, alGet, hq] using ih hget'
      · simpa [List.filter, hpq] using ih hget'

/-! ### Heartbeat health model (per-connection data)

Mirrors the `clientData` records created in `handleClientIdentification`
and mutated by `sendHeartbeats` (ping + scheduled pong-timeout callback)
and `handlePongResponse` in `socket-server.js`.  The float moving average
is embedded over `ℚ`. -/

inductive Health
  | healthy
  | degraded
  | critical
  deriving DecidableEq, Repr

structure ClientData where
  client : Nat                 -- the underlying ws channel (identified by number)
  connectedAt : Nat
  lastActivity : Nat
  lastPingSent : Option Nat
  lastPongReceived : Option Nat
  awaitingPong : Bool
  missedHeartbeats : Nat
  healthStatus : Health
  requestsProcessed : Nat
  requestsSucceeded : Nat
  requestsFailed : Nat
  avgResponseTime : ℚ
  deriving DecidableEq, Repr

def freshClientData (conn : Nat) (now : Nat) : ClientData :=
  { client := conn
    connectedAt := now
    lastActivity := now
    lastPingSent := none
    lastPongReceived := none
    awaitingPong := false
    missedHeartbeats := 0
    healthStatus := Health.healthy
    requestsProcessed := 0
    requestsSucceeded := 0
    requestsFailed := 0
    avgResponseTime := 0 }

/-- Source constant `HEARTBEAT_CONFIG.maxMissed` in `socket-server.js`. -/
def maxMissed : Nat := 3

/-- Body of the per-client loop in `sendHeartbeats` (for an OPEN client):
records `lastPingSent`, sets `awaitingPong` and arms the pong timeout. -/
def pingClient (now : Nat) (cd : ClientData) : ClientData :=
  { cd with lastPingSent := some now, awaitingPong := true }

/-- The pong-timeout callback armed by `sendHeartbeats`.  Its body runs only
when the client is still awaiting a pong and the channel is open. -/
def pongTimeoutFire (isOpen : Bool) (cd : ClientData) : ClientData :=
  if cd.awaitingPong && isOpen then
    let missed := cd.missedHeartbeats + 1
    { cd with
        missedHeartbeats := missed
        awaitingPong := false
        healthStatus := if maxMissed ≤ missed then Health.critical else Health.degraded }
  else cd

/-- Per-client part of `handlePongResponse`: clears the pong timeout,
restores health to healthy only when `0 < missedHeartbeats < maxMissed`,
then resets the missed counter. -/
def pongReceive (now : Nat) (cd : ClientData) : ClientData :=
  let cd := { cd with awaitingPong := false, lastPongReceived := some now, lastActivity := now }
  let cd :=
    if 0 < cd.missedHeartbeats ∧ cd.missedHeartbeats < maxMissed then
      { cd with healthStatus := Health.healthy }
    else cd
  { cd with missedHeartbeats := 0 }

/-- Events the heartbeat record of a single connection can undergo (with the
channel open): a ping being sent to it, its pong timeout firing, and a
pong arriving from it. -/
inductive HBEvent
  | ping (now : Nat)
  | pongTimeout
  | pong (now : Nat)
  deriving DecidableEq, Repr

def hbStep (cd : ClientData) : HBEvent → ClientData
  | HBEvent.ping now => pingClient now cd
  | HBEvent.pongTimeout => pongTimeoutFire true cd
  | HBEvent.pong now => pongReceive now cd

def hbRun (cd : ClientData) : List HBEvent → ClientData
  | [] => cd
  | e :: rest => hbRun (hbStep cd e) rest

/-! ### Broker state (`socket-server.js`)

`clients.extension` / `clients.xfetch` are the two role partitions,
`pendingRequests` the in-flight table, `pendingRequestsQueue` the queued
table.  Connections are identified by a `Nat`; the broker keys its maps by
the per-connection uuid, which is one-to-one with the connection, so the
same `Nat` serves as both.  `openConns` models which channels have
`readyState === OPEN`; `connType` models the `ws.clientType` tag set by
identification.  `dispatched` is a history (ghost) variable, not present
in the source: it records request ids successfully handed to an executor
and is used only to state the executor contract (an executor responds only
to ids it was sent). -/

inductive Role
  | extension
  | xfetch
  deriving DecidableEq, Repr

/-- A fetch submission frame from a requester: `{url, options, id}`.
The options payload is opaque to the broker. -/
structure ReqMsg where
  url : String
  options : String
  id : String
  deriving DecidableEq, Repr

/-- A fetch outcome frame from an executor: `{id, response|error}`. -/
structure ExecMsg where
  id : String
  response : Option String
  error : Option String
  deriving DecidableEq, Repr

/-- Outbound frames the broker writes to a channel. -/
inductive Payload
  | respMsg (id : String) (response : Option String) (error : Option String)
  | reqMsg (url : String) (options : String) (id : String)
  | control (tag : String)
  deriving DecidableEq, Repr

structure Frame where
  conn : Nat
  payload : Payload
  deriving DecidableEq, Repr

/-- An entry of `pendingRequests` (in-flight table). -/
structure PendingReq where
  client : Nat
  timestamp : Nat
  id : String
  url : String
  options : String
  clientId : Nat
  deriving DecidableEq, Repr

/-- An entry of `pendingRequestsQueue`; `count` is the retry counter the
entry was queued with, captured by the scheduled 2s timeout closure.
`delayMs` records the fixed delay of that scheduled retry. -/
structure QueueEntry where
  client : Nat
  timestamp : Nat
  id : String
  url : String
  clientId : Nat
  originalMessage : ReqMsg
  count : Nat
  delayMs : Nat
  deriving DecidableEq, Repr

structure Stats where
  requestsProcessed : Nat
  requestsSucceeded : Nat
  requestsFailed : Nat
  totalConnections : Nat
  activeConnections : Nat
  disconnections : Nat
  reconnections : Nat
  hbSent : Nat
  hbReceived : Nat
  hbMissed : Nat
  deriving DecidableEq, Repr

def statsInit : Stats := ⟨0, 0, 0, 0, 0, 0, 0, 0, 0, 0⟩

structure BrokerState where
  extension : List (Nat × ClientData)
  xfetch : List (Nat × ClientData)
  pendingRequests : List (String × PendingReq)
  queue : List (String × QueueEntry)
  stats : Stats
  openConns : List Nat
  connType : List (Nat × Role)
  dispatched : List String
  deriving DecidableEq, Repr

def brokerInit : BrokerState := ⟨[], [], [], [], statsInit, [], [], []⟩

def BrokerState.clientsOf (s : BrokerState) : Role → List (Nat × ClientData)
  | Role.extension => s.extension
  | Role.xfetch => s.xfetch

def BrokerState.setClients (s : BrokerState) : Role → List (Nat × ClientData) → BrokerState
  | Role.extension, m => { s with extension := m }
  | Role.xfetch, m => { s with xfetch := m }

/-- The `lastActivity` refresh done at the top of the request/response
handlers (`if (clients.X.has(clientId)) ... lastActivity = Date.now()`). -/
def touchActivity (clientId : Nat) (now : Nat) (m : List (Nat × ClientData)) :
    List (Nat × ClientData) :=
  match alGet clientId m with
  | none => m
  | some cd => alSet clientId { cd with lastActivity := now } m

/-! ### Executor selection (`sendToExtension`) -/

def healthScoreInt (h : Health) : Int :=
  match h with
  | Health.healthy => 2
  | Health.degraded => 1
  | Health.critical => 0

def entryScore (e : Nat × ClientData) : Int := healthScoreInt e.2.healthStatus

def entryOpen (opens : List Nat) (e : Nat × ClientData) : Bool :=
  opens.contains e.2.client

/-- The selection loop of `sendToExtension`: scan in iteration order,
keep the strictly-best open client so far (start score −1), break as soon
as a fully healthy one (score 2) is found. -/
def bestLoop (opens : List Nat) :
    List (Nat × ClientData) → Option (Nat × ClientData) → Int → Option (Nat × ClientData)
  | [], best, _ => best
  | e :: rest, best, bestHealth =>
    if entryOpen opens e then
      let score := entryScore e
      if bestHealth < score then
        if score == 2 then some e else bestLoop opens rest (some e) score
      else bestLoop opens rest best bestHealth
    else bestLoop opens rest best bestHealth

def bestClient (s : BrokerState) : Option (Nat × ClientData) :=
  bestLoop s.openConns s.extension none (-1)

/-- Embeds `sendToExtension(message)`: picks the healthiest open executor and
sends the request to it; returns whether a send happened.  Channel sends
are modeled as never throwing. -/
def sendToExtension (s : BrokerState) (msg : ReqMsg) : Bool × List Frame :=
  if s.extension.isEmpty then (false, [])
  else
    match bestClient s with
    | some e =>
      if e.2.client ∈ s.openConns then
        (true, [⟨e.2.client, Payload.reqMsg msg.url msg.options msg.id⟩])
      else (false, [])
    | none => (false, [])

/-- Embeds `sendToXfetch(client, message)`: send only when the channel is open. -/
def sendToXfetch (conn : Nat) (p : Payload) (s : BrokerState) : Bool × List Frame :=
  if conn ∈ s.openConns then (true, [⟨conn, p⟩]) else (false, [])

/-- Embeds `notifyXfetchClients`: availability notice to every open requester. -/
def notifyXfetchClients (available : Bool) (s : BrokerState) : List Frame :=
  (s.xfetch.filter (fun e => decide (e.2.client ∈ s.openConns))).map
    (fun e => ⟨e.2.client, Payload.control (if available then ("extensionAvailable") else ("extensionUnavailable"))⟩)

/-! ### Request routing (`validateExtensionClients` and the message handlers) -/

def noExtMsg : String := "No extension clients available after maximum retries"

def failedSendMsg : String := "Failed to send request to extension clients"

def unexpectedMsg : String := "Unexpected server condition"

/-- The fixed delay of the scheduled selection retry (`setTimeout(..., 2000)`). -/
def retryDelayMs : Nat := 2000

/-- Embeds `validateExtensionClients(message, ws, clientId, count)`.  One invocation;
the recursive retry happens through the scheduled timeout, modeled by
`retryTick` below.  Queuing replaces any existing entry for the id (the
source clears the previous timeout first); the stored `count` is the
counter captured by the scheduled callback, which will re-enter with
`count + 1`. -/
def validateExtensionClients (msg : ReqMsg) (ws : Nat) (clientId : Nat) (count : Nat)
    (now : Nat) (s : BrokerState) : BrokerState × List Frame :=
  if s.extension.isEmpty && count < 3 then
    ({ s with queue := alSet msg.id ⟨ws, now, msg.id, msg.url, clientId, msg, count, retryDelayMs⟩ s.queue }, [])
  else if s.extension.isEmpty && 3 ≤ count then
    let s := { s with queue := alErase msg.id s.queue }
    let frames := (sendToXfetch ws (Payload.respMsg msg.id none (some noExtMsg)) s).2
    let s := { s with
        pendingRequests := alErase msg.id s.pendingRequests
        stats := { s.stats with
            requestsFailed := s.stats.requestsFailed + 1
            requestsProcessed := s.stats.requestsProcessed + 1 } }
    (s, frames)
  else if !s.extension.isEmpty then
    match sendToExtension s msg with
    | (true, fr) => ({ s with dispatched := msg.id :: s.dispatched }, fr)
    | (false, _) =>
      let s := { s with queue := alErase msg.id s.queue }
      let frames := (sendToXfetch ws (Payload.respMsg msg.id none (some failedSendMsg)) s).2
      let s := { s with
          pendingRequests := alErase msg.id s.pendingRequests
          stats := { s.stats with
              requestsFailed := s.stats.requestsFailed + 1
              requestsProcessed := s.stats.requestsProcessed + 1 } }
      let s :=
        match alGet clientId s.xfetch with
        | none => s
        | some cd =>
          let cd := { cd with
              requestsProcessed := cd.requestsProcessed + 1
              requestsFailed := cd.requestsFailed + 1 }
          { s with xfetch := alSet clientId cd s.xfetch }
      (s, frames)
  else
    -- the defensive fourth branch of the source (unreachable: the three cases cover all)
    let s := { s with queue := alErase msg.id s.queue }
    let frames : List Frame := [⟨ws, Payload.respMsg msg.id none (some unexpectedMsg)⟩]
    let s := { s with
        pendingRequests := alErase msg.id s.pendingRequests
        stats := { s.stats with
            requestsFailed := s.stats.requestsFailed + 1
            requestsProcessed := s.stats.requestsProcessed + 1 } }
    (s, frames)

/-- Embeds `handleXfetchRequest(ws, message, clientId)`. -/
def handleXfetchRequest (ws : Nat) (msg : ReqMsg) (clientId : Nat) (now : Nat)
    (s : BrokerState) : BrokerState × List Frame :=
  let s := { s with xfetch := touchActivity clientId now s.xfetch }
  let s := { s with pendingRequests := alSet msg.id ⟨ws, now, msg.id, msg.url, msg.options, clientId⟩ s.pendingRequests }
  validateExtensionClients msg ws clientId 0 now s

/-- The scheduled retry timeout of a queued request firing: deletes the
queue entry and re-enters `validateExtensionClients` with `count + 1`.
If the entry is gone the timer was cleared with it (no-op). -/
def retryTick (id : String) (now : Nat) (s : BrokerState) : BrokerState × List Frame :=
  match alGet id s.queue with
  | none => (s, [])
  | some e =>
    let s := { s with queue := alErase id s.queue }
    validateExtensionClients e.originalMessage e.client e.clientId (e.count + 1) now s

/-- Embeds `handleExtensionResponse(ws, message, clientId)`. -/
def handleExtensionResponse (conn : Nat) (msg : ExecMsg) (now : Nat)
    (s : BrokerState) : BrokerState × List Frame :=
  let s := { s with extension := touchActivity conn now s.extension }
  match alGet msg.id s.pendingRequests with
  | none => (s, [])
  | some pr =>
    let responseTime := now - pr.timestamp
    let frames := (sendToXfetch pr.client (Payload.respMsg msg.id msg.response msg.error) s).2
    let s := { s with stats := { s.stats with
        requestsProcessed := s.stats.requestsProcessed + 1
        requestsSucceeded := if msg.response.isSome then s.stats.requestsSucceeded + 1 else s.stats.requestsSucceeded
        requestsFailed := if msg.response.isSome then s.stats.requestsFailed else s.stats.requestsFailed + 1 } }
    let s :=
      match alGet conn s.extension with
      | none => s
      | some cd =>
        let cd := { cd with
            requestsProcessed := cd.requestsProcessed + 1
            requestsSucceeded := if msg.response.isSome then cd.requestsSucceeded + 1 else cd.requestsSucceeded
            requestsFailed := if msg.response.isSome then cd.requestsFailed else cd.requestsFailed + 1 }
        { s with extension := alSet conn cd s.extension }
    let s :=
      match alGet pr.clientId s.xfetch with
      | none => s
      | some cd =>
        let cd := { cd with requestsProcessed := cd.requestsProcessed + 1 }
        let cd :=
          if msg.response.isSome then
            let cd := { cd with requestsSucceeded := cd.requestsSucceeded + 1 }
            { cd with avgResponseTime :=
                if cd.avgResponseTime = 0 then (responseTime : ℚ)
                else (7 / 10 : ℚ) * cd.avgResponseTime + (3 / 10 : ℚ) * (responseTime : ℚ) }
          else { cd with requestsFailed := cd.requestsFailed + 1 }
        { s with xfetch := alSet pr.clientId cd s.xfetch }
    let s := { s with pendingRequests := alErase msg.id s.pendingRequests }
    (s, frames)

/-- Embeds `handlePongResponse(ws, clientId)` (broker side). -/
def handlePongResponse (conn : Nat) (now : Nat) (s : BrokerState) : BrokerState :=
  match alGet conn s.connType with
  | none => s
  | some role =>
    match alGet conn (s.clientsOf role) with
    | none => s
    | some cd =>
      let s := s.setClients role (alSet conn (pongReceive now cd) (s.clientsOf role))
      { s with stats := { s.stats with hbReceived := s.stats.hbReceived + 1 } }

/-- Embeds `sendHeartbeats(clientType)`: ping every open client of the role. -/
def sendHeartbeats (role : Role) (now : Nat) (s : BrokerState) : BrokerState :=
  let m := s.clientsOf role
  let sent := (m.filter (fun e => decide (e.2.client ∈ s.openConns))).length
  let m' := m.map (fun e => if e.2.client ∈ s.openConns then (e.1, pingClient now e.2) else e)
  let s := s.setClients role m'
  { s with stats := { s.stats with hbSent := s.stats.hbSent + sent } }

/-- The pong timeout armed for one client firing (see `sendHeartbeats`). -/
def pongTimeoutStep (role : Role) (conn : Nat) (s : BrokerState) : BrokerState :=
  match alGet conn (s.clientsOf role) with
  | none => s
  | some cd =>
    if cd.awaitingPong && s.openConns.contains conn then
      let s := s.setClients role (alSet conn (pongTimeoutFire true cd) (s.clientsOf role))
      { s with stats := { s.stats with hbMissed := s.stats.hbMissed + 1 } }
    else s

/-- Per-client body of `checkClientHealth`: terminate and purge a client
whose missed count reached the ceiling.  `terminate()` tears the socket
down immediately (its channel is no longer OPEN). -/
def checkClientHealthStep (role : Role) (conn : Nat) (s : BrokerState) : BrokerState :=
  match alGet conn (s.clientsOf role) with
  | none => s
  | some cd =>
    if maxMissed ≤ cd.missedHeartbeats then
      let purged := (s.pendingRequests.filter (fun p => p.2.client == cd.client)).length
      let s := s.setClients role (alErase conn (s.clientsOf role))
      { s with
          openConns := s.openConns.filter (fun c => c != cd.client)
          pendingRequests := s.pendingRequests.filter (fun p => p.2.client != cd.client)
          stats := { s.stats with
              disconnections := s.stats.disconnections + 1
              activeConnections := s.stats.activeConnections - 1
              requestsFailed := s.stats.requestsFailed + purged } }
    else s

/-- The `close` event handler of an identified connection. -/
def handleClose (role : Role) (conn : Nat) (s : BrokerState) : BrokerState × List Frame :=
  let s := { s with openConns := s.openConns.filter (fun c => c != conn) }
  let s := s.setClients role (alErase conn (s.clientsOf role))
  let s := { s with pendingRequests := s.pendingRequests.filter (fun p => p.2.client != conn) }
  let frames := if role == Role.extension && s.extension.isEmpty then notifyXfetchClients false s else []
  ({ s with stats := { s.stats with disconnections := s.stats.disconnections + 1 } }, frames)

/-- Embeds `handleClientIdentification(ws, message, clientId, clientIp)`. -/
def handleClientIdentification (role : Role) (conn : Nat) (now : Nat)
    (s : BrokerState) : BrokerState × List Frame :=
  let isReconnection := (alGet conn s.connType).isSome
  let s := { s with connType := alSet conn role s.connType }
  let s := s.setClients role (alSet conn (freshClientData conn now) (s.clientsOf role))
  let s :=
    if isReconnection then
      { s with stats := { s.stats with reconnections := s.stats.reconnections + 1 } }
    else s
  let f1 : List Frame := [⟨conn, Payload.control ("identified")⟩]
  let f2 : List Frame :=
    if role == Role.xfetch then
      [⟨conn, Payload.control
          (if s.extension.length == 1 then ("extensionAvailable") else ("extensionUnavailable"))⟩]
    else []
  let f3 : List Frame :=
    if role == Role.extension && s.extension.length == 1 then notifyXfetchClients true s else []
  (s, f1 ++ f2 ++ f3)

/-- The `connection` event: a new channel opens and is prompted to identify. -/
def handleConnect (conn : Nat) (s : BrokerState) : BrokerState × List Frame :=
  ({ s with
      openConns := conn :: s.openConns
      stats := { s.stats with
          totalConnections := s.stats.totalConnections + 1
          activeConnections := s.stats.activeConnections + 1 } },
   [⟨conn, Payload.control ("identify")⟩])

/-! ### The event timeline of the broker -/

/-- A channel handle not used by anything in the current state (a newly
created socket is distinct from every live or recorded one). -/
def freshConn (conn : Nat) (s : BrokerState) : Prop :=
  conn ∉ s.openConns ∧
  (∀ p ∈ s.connType, p.1 ≠ conn) ∧
  (∀ p ∈ s.extension, p.2.client ≠ conn) ∧
  (∀ p ∈ s.xfetch, p.2.client ≠ conn) ∧
  (∀ p ∈ s.pendingRequests, p.2.client ≠ conn) ∧
  (∀ p ∈ s.queue, p.2.client ≠ conn)

instance (conn : Nat) (s : BrokerState) : Decidable (freshConn conn s) := by
  unfold freshConn
  infer_instance

/-- The caller contract on request ids: globally unique for the lifetime of the broker
process (collision is undefined behavior per the design). -/
def freshId (id : String) (s : BrokerState) : Prop :=
  alGet id s.pendingRequests = none ∧ alGet id s.queue = none ∧ id ∉ s.dispatched

instance (id : String) (s : BrokerState) : Decidable (freshId id s) := by
  unfold freshId
  infer_instance

/-- One asynchronous event on the single-threaded broker timeline.
Executor responses are restricted to dispatched ids (the executor
black-box contract: it only ever answers ids it was sent). -/
inductive BStep : BrokerState → BrokerState → Prop
  | connect (conn : Nat) (s : BrokerState) :
      freshConn conn s → BStep s (handleConnect conn s).1
  | identify (role : Role) (conn : Nat) (now : Nat) (s : BrokerState) :
      conn ∈ s.openConns → BStep s (handleClientIdentification role conn now s).1
  | submit (ws : Nat) (msg : ReqMsg) (now : Nat) (s : BrokerState) :
      alGet ws s.connType = some Role.xfetch → freshId msg.id s →
      BStep s (handleXfetchRequest ws msg ws now s).1
  | tick (id : String) (now : Nat) (s : BrokerState) :
      BStep s (retryTick id now s).1
  | response (conn : Nat) (msg : ExecMsg) (now : Nat) (s : BrokerState) :
      alGet conn s.connType = some Role.extension → msg.id ∈ s.dispatched →
      BStep s (handleExtensionResponse conn msg now s).1
  | closes (role : Role) (conn : Nat) (s : BrokerState) :
      alGet conn s.connType = some role → BStep s (handleClose role conn s).1
  | heartbeat (role : Role) (now : Nat) (s : BrokerState) :
      BStep s (sendHeartbeats role now s)
  | pongTimeout (role : Role) (conn : Nat) (s : BrokerState) :
      BStep s (pongTimeoutStep role conn s)
  | pong (conn : Nat) (now : Nat) (s : BrokerState) :
      BStep s (handlePongResponse conn now s)
  | health (role : Role) (conn : Nat) (s : BrokerState) :
      BStep s (checkClientHealthStep role conn s)

def ReachableB (s : BrokerState) : Prop := Relation.ReflTransGen BStep brokerInit s

/-! ### Spec-side executor selection (for the refinement comparison)

Modelled from the spec words (§4.2 `bestExecutor`): the open executor with
the highest health score, ties preferring the first encountered. -/

def maxScoreL (l : List (Nat × ClientData)) : Int :=
  l.foldr (fun e m => max (entryScore e) m) (-1)

def firstAtMax (l : List (Nat × ClientData)) : Option (Nat × ClientData) :=
  l.find? (fun e => entryScore e == maxScoreL l)

/-! ### Requester client core (`xfetch.js`)

The `Xfetch` class.  URLs are strings; `new URL(url).hostname` is embedded
as `hostname`. -/

/-- Drop everything up to and including the `://` scheme separator. -/
def afterScheme : List Char → Option (List Char)
  | [] => none
  | ':' :: '/' :: '/' :: rest => some rest
  | _ :: rest => afterScheme rest

/-- The host part: everything before the first path, port, query or
fragment delimiter. -/
def takeHost : List Char → List Char
  | [] => []
  | c :: rest => if c = '/' ∨ c = ':' ∨ c = '?' ∨ c = '#' then [] else c :: takeHost rest

def hostname (url : String) : String :=
  match afterScheme url.toList with
  | none => String.mk []
  | some rest => String.mk (takeHost rest)

structure Cookie where
  name : String
  value : String
  deriving DecidableEq, Repr

/-- A plain JS object carrying numeric-index properties, as produced by
spreading an array into an object literal (`setCookies` stores exactly
this).  Spreading copies the own enumerable properties of an array — its index
keys — but not its non-enumerable `length`. -/
structure JsIndexObj where
  entries : List (Nat × Cookie)
  length : Option Nat
  deriving DecidableEq, Repr

def spreadArrayIntoObject (cs : List Cookie) : JsIndexObj :=
  ⟨cs.enum, none⟩

/-- Embeds `Array.from` on a non-iterable array-like object: reads its `length`
property (an absent `length` converts to 0) and collects the elements at
indices `0..length-1`. -/
def arrayFrom (o : JsIndexObj) : List Cookie :=
  (List.range (o.length.getD 0)).filterMap (fun i => alGet i o.entries)

/-- Embeds `this.cookies`: hostname-keyed map; values are whatever `setCookies`
stored (the spread object). -/
abbrev CookieStore := List (String × JsIndexObj)

/-- Embeds `getCookies(url)`: that is `Array.from(this.cookies.get(domain) || [])` —
an absent entry yields a real empty array, a present one goes through
`Array.from` on the stored object. -/
def getCookies (store : CookieStore) (url : String) : List Cookie :=
  match alGet (hostname url) store with
  | none => []
  | some o => arrayFrom o

/-- Embeds `setCookies(url, cookies)`: that is `this.cookies.set(domain, \x7b...cookies\x7d)`. -/
def setCookies (store : CookieStore) (url : String) (cookies : List Cookie) : CookieStore :=
  alSet (hostname url) (spreadArrayIntoObject cookies) store

/-- The caller-supplied options object: the two fields the send path can
touch, plus its remaining fields held abstract. -/
structure FetchOptions where
  cookiejar : Option Bool
  cookies : Option (List Cookie)
  other : List (String × String)
  deriving DecidableEq, Repr

/-- The cookie-injection statement at the top of the send path of
`_sendRequest`: when `options.cookiejar === true` it assigns
`options.cookies = this.getCookies(url)` on the caller-supplied object; the other
arm only evaluates `options.cookies` and has no effect.  The value below
is the caller-supplied object after the statement. -/
def injectCookies (store : CookieStore) (url : String) (opts : FetchOptions) : FetchOptions :=
  if opts.cookiejar = some true then { opts with cookies := some (getCookies store url) }
  else opts

/-- Terminal outcome of a send-path call. -/
inductive SendOutcome
  | resolved (response : String)
  | rejectedMaxRetries
  deriving DecidableEq, Repr

/-- Embeds `_sendRequest(url, options, retryCount)` on the timeline where no
matching response frame ever arrives, so every per-attempt timeout fires.
Each attempt allocates a fresh correlation id (`uuidv4()`), modeled by an
allocation counter `nextId`; on timeout, the attempt retries with
`retryCount + 1` while below `maxRetries`, else rejects.  Returns all
allocated ids and the terminal outcome. -/
def sendRequestTimeouts (maxRetries retryCount nextId : Nat) : List Nat × SendOutcome :=
  let requestId := nextId
  if h : retryCount < maxRetries then
    let rest := sendRequestTimeouts maxRetries (retryCount + 1) (nextId + 1)
    (requestId :: rest.1, rest.2)
  else ([requestId], SendOutcome.rejectedMaxRetries)
termination_by maxRetries - retryCount
decreasing_by omega

/-- Arguments the identification-retry callback receives on an interval
tick: `setInterval` invokes its callback with no arguments, so the
`resolve` and `reject` parameters are `undefined` (shadowing those of the promise
executor) and `counter` takes its default 0 on every tick. -/
structure IdentTickArgs where
  resolve : Option Unit
  reject : Option Unit
  counter : Nat
  deriving DecidableEq, Repr

def identIntervalArgs : IdentTickArgs := ⟨none, none, 0⟩

inductive IdentAction
  | rejectIdentificationFailure
  | resendIdentification (nextCounter : Nat)
  deriving DecidableEq, Repr

/-- Body of the callback `fetch` hands to `setInterval` while the client
is not yet identified: reject after 3 attempts, else re-send the
identification with `counter + 1`. -/
def identTick (args : IdentTickArgs) : IdentAction :=
  if 3 ≤ args.counter then IdentAction.rejectIdentificationFailure
  else IdentAction.resendIdentification (args.counter + 1)

/-- Requester-side rejection taxonomy. -/
inductive RejectReason
  | connectionClosed
  | maxRetriesExceeded
  | identificationFailed
  | noExtensionAvailable
  | notConnected
  | requestTimeout
  deriving DecidableEq, Repr

/-- The give-up timer of a queued `fetch` call: the context-specific
rejection it picks when it fires with the request still queued. -/
def giveUpReason (isConnected extensionAvailable : Bool) : RejectReason :=
  if isConnected && !extensionAvailable then RejectReason.noExtensionAvailable
  else if !isConnected then RejectReason.notConnected
  else RejectReason.requestTimeout

/-! ### Reconnection backoff (requester client) -/

structure ReconnState where
  reconnectAttempts : Nat
  maxReconnectAttempts : Nat
  reconnectDelay : Nat
  deriving DecidableEq, Repr

/-- The reconnect-scheduling tail of the `onclose` handler: below the
ceiling, bump the counter and schedule `reconnectDelay * min(attempts, 5)`;
at or above it, schedule nothing. -/
def oncloseReconnect (s : ReconnState) : ReconnState × Option Nat :=
  if s.reconnectAttempts < s.maxReconnectAttempts then
    let n := s.reconnectAttempts + 1
    ({ s with reconnectAttempts := n }, some (s.reconnectDelay * min n 5))
  else (s, none)

/-- Embeds `onopen`: resets the attempt counter to 0. -/
def onopenReset (s : ReconnState) : ReconnState := { s with reconnectAttempts := 0 }

/-- State after `n` consecutive closes. -/
def afterCloses (s : ReconnState) : Nat → ReconnState
  | 0 => s
  | n + 1 => (oncloseReconnect (afterCloses s n)).1

/-- The delay scheduled on the `n`-th consecutive close (1-based). -/
def nthCloseDelay (s : ReconnState) (n : Nat) : Option Nat :=
  (oncloseReconnect (afterCloses s (n - 1))).2

/-- The client constructor state relevant to reconnection:
`reconnectAttempts = 0`, `maxReconnectAttempts = config.maxRetries`,
`reconnectDelay = config.timeout`. -/
def reconnInit (baseDelay maxAttempts : Nat) : ReconnState :=
  ⟨0, maxAttempts, baseDelay⟩

/-! ## Theorems -/

theorem afterCloses_fixed (s0 : ReconnState) (k : Nat) :
    (afterCloses s0 k).maxReconnectAttempts = s0.maxReconnectAttempts ∧
    (afterCloses s0 k).reconnectDelay = s0.reconnectDelay := by
  induction k with
  | zero => exact ⟨rfl, rfl⟩
  | succ k ih =>
    simp only [afterCloses, oncloseReconnect]
    split <;> simpa using ih

theorem oncloseReconnect_attempts (s : ReconnState) :
    (oncloseReconnect s).1.reconnectAttempts =
      if s.reconnectAttempts < s.maxReconnectAttempts then s.reconnectAttempts + 1
      else s.reconnectAttempts := by
  simp only [oncloseReconnect]
  split <;> rfl

theorem oncloseReconnect_snd (s : ReconnState) :
    (oncloseReconnect s).2 =
      if s.reconnectAttempts < s.maxReconnectAttempts then
        some (s.reconnectDelay * min (s.reconnectAttempts + 1) 5)
      else none := by
  simp only [oncloseReconnect]
  split <;> rfl

theorem afterCloses_attempts (b m k : Nat) :
    (afterCloses (reconnInit b m) k).reconnectAttempts = min k m := by
  induction k with
  | zero => simp [afterCloses, reconnInit]
  | succ k ih =>
    have hfix := afterCloses_fixed (reconnInit b m) k
    have hmax : (reconnInit b m).maxReconnectAttempts = m := rfl
    have hstep : afterCloses (reconnInit b m) (k + 1) =
        (oncloseReconnect (afterCloses (reconnInit b m) k)).1 := rfl
    rw [hstep, oncloseReconnect_attempts, ih, hfix.1, hmax]
    split <;> omega

theorem nthCloseDelay_eq (b m n : Nat) :
    nthCloseDelay (reconnInit b m) n =
      if n - 1 < m then some (b * min (n - 1 + 1) 5) else none := by
  have ha := afterCloses_attempts b m (n - 1)
  have hfix := afterCloses_fixed (reconnInit b m) (n - 1)
  have hmax : (reconnInit b m).maxReconnectAttempts = m := rfl
  have hdel : (reconnInit b m).reconnectDelay = b := rfl
  rw [nthCloseDelay, oncloseReconnect_snd, ha, hfix.1, hfix.2, hmax, hdel]
  by_cases h : n - 1 < m
  · have h1 : min (n - 1) m < m := by omega
    have h2 : min (n - 1) m + 1 = n - 1 + 1 := by omega
    rw [if_pos h1, if_pos h, h2]
  · have h1 : ¬ (min (n - 1) m < m) := by omega
    rw [if_neg h1, if_neg h]

/-- C9: the requester-client reconnect delay after the n-th consecutive
close is `baseDelay * min(n, 5)` (for closes that still schedule, i.e.
`n ≤ maxReconnectAttempts`), hence monotone in n and capped at
`5 * baseDelay`; the counter resets to 0 on open; once the attempt count
has reached the maximum, a close schedules no further reconnect. -/
theorem claim_C9 (b m n : Nat) :
    (1 ≤ n → n ≤ m → nthCloseDelay (reconnInit b m) n = some (b * min n 5) ∧
       b * min n 5 ≤ 5 * b) ∧
    (∀ n' d d', n ≤ n' → nthCloseDelay (reconnInit b m) n = some d →
       nthCloseDelay (reconnInit b m) n' = some d' → d ≤ d') ∧
    (∀ s : ReconnState, (onopenReset s).reconnectAttempts = 0) ∧
    (m < n → nthCloseDelay (reconnInit b m) n = none) := by
  refine ⟨?_, ?_, fun s => rfl, ?_⟩
  · intro h1 h2
    rw [nthCloseDelay_eq]
    have hlt : n - 1 < m := by omega
    have hmin : n - 1 + 1 = n := by omega
    constructor
    · simp [hlt, hmin]
    · have : min n 5 ≤ 5 := Nat.min_le_right n 5
      calc b * min n 5 ≤ b * 5 := Nat.mul_le_mul_left b this
        _ = 5 * b := Nat.mul_comm b 5
  · intro n' d d' hle hd hd'
    rw [nthCloseDelay_eq] at hd hd'
    by_cases h1 : n - 1 < m
    · by_cases h2 : n' - 1 < m
      · simp only [if_pos h1] at hd
        simp only [if_pos h2] at hd'
        have hdv : d = b * min (n - 1 + 1) 5 := by exact (Option.some.inj hd).symm
        have hdv' : d' = b * min (n' - 1 + 1) 5 := by exact (Option.some.inj hd').symm
        subst hdv hdv'
        exact Nat.mul_le_mul_left b (by omega)
      · simp [h2] at hd'
    · simp [h1] at hd
  · intro h
    rw [nthCloseDelay_eq]
    have : ¬ (n - 1 < m) := by omega
    simp [this]

theorem claim_C9_witness :
    nthCloseDelay (reconnInit 100 4) 2 = some (100 * min 2 5) ∧
    100 * min 2 5 ≤ 5 * 100 :=
  (claim_C9 100 4 2).1 (by decide) (by decide)

theorem sendRequestTimeouts_eq (d rc base : Nat) :
    sendRequestTimeouts (rc + d) rc base =
      (List.range' base (d + 1), SendOutcome.rejectedMaxRetries) := by
  induction d generalizing rc base with
  | zero =>
    rw [sendRequestTimeouts]
    simp
  | succ d ih =>
    rw [sendRequestTimeouts]
    have hlt : rc < rc + (d + 1) := by omega
    rw [dif_pos hlt]
    have harg : rc + (d + 1) = (rc + 1) + d := by omega
    rw [harg, ih (rc + 1) (base + 1)]
    simp [List.range'_succ]

/-- C6: on the timeline where no matching response frame ever arrives, the
per-attempt timeout re-invokes the send path up to `maxRetries` times,
each attempt allocating a fresh correlation id — `maxRetries + 1` distinct
ids in total — and after the attempt with `retryCount = maxRetries` times
out, the call is rejected with the max-retries-exceeded failure. -/
theorem claim_C6 (m : Nat) :
    (sendRequestTimeouts m 0 0).1.length = m + 1 ∧
    (sendRequestTimeouts m 0 0).1.Nodup ∧
    (sendRequestTimeouts m 0 0).2 = SendOutcome.rejectedMaxRetries := by
  have h := sendRequestTimeouts_eq m 0 0
  rw [Nat.zero_add] at h
  rw [h]
  exact ⟨by simp, List.nodup_range' 0 (m + 1), rfl⟩

/-- C7 (code bug): `setCookies` stores the object spread `\x7b...cookies\x7d`
(index-keyed, no `length`), so a following `getCookies` for the same
hostname returns `[]` via `Array.from`, not the last-written cookie list;
an unwritten hostname also yields `[]`. -/
theorem claim_C7 :
    hostname ("https://a.test/x") = hostname ("https://a.test/") ∧
    getCookies (setCookies ([]) ("https://a.test/x") [⟨("n"), ("v")⟩]) ("https://a.test/") = [] ∧
    ([] : List Cookie) ≠ [⟨("n"), ("v")⟩] ∧
    getCookies ([]) ("https://never.test/") = [] := by
  refine ⟨rfl, rfl, by decide, rfl⟩

/-- C8 (code bug): the identification-retry interval callback always runs
with `counter = 0` (`setInterval` passes no arguments), so it re-sends the
identification on every tick and its rejection branch is unreachable; a
queued call is instead rejected by the give-up timer with a
context-specific reason, never the identification-failure one. -/
theorem claim_C8 :
    identTick identIntervalArgs = IdentAction.resendIdentification 1 ∧
    identTick identIntervalArgs ≠ IdentAction.rejectIdentificationFailure ∧
    giveUpReason true false = RejectReason.noExtensionAvailable ∧
    giveUpReason true true = RejectReason.requestTimeout ∧
    giveUpReason false false = RejectReason.notConnected ∧
    RejectReason.noExtensionAvailable ≠ RejectReason.identificationFailed ∧
    RejectReason.requestTimeout ≠ RejectReason.identificationFailed := by
  refine ⟨rfl, by decide, rfl, rfl, rfl, by decide, by decide⟩

/-- C10: with `options.cookiejar === true` the send path assigns the
caller-visible `cookies` field from the entry of the cookie store for the URL
hostname and leaves every other field unchanged; otherwise the options
value is not modified at all. -/
theorem claim_C10 (store : CookieStore) (url : String) (opts : FetchOptions) :
    (opts.cookiejar = some true →
       injectCookies store url opts = { opts with cookies := some (getCookies store url) }) ∧
    (opts.cookiejar ≠ some true → injectCookies store url opts = opts) := by
  constructor
  · intro h
    simp [injectCookies, h]
  · intro h
    simp [injectCookies, h]

theorem claim_C10_witness :
    injectCookies ([]) ("https://a.test/") ⟨some true, none, [(("k"), ("w"))]⟩ =
      { cookiejar := some true, cookies := some [], other := [(("k"), ("w"))] } :=
  (claim_C10 ([]) ("https://a.test/") ⟨some true, none, [(("k"), ("w"))]⟩).1 rfl

/-! ### C1: at-most-once response delivery -/

theorem handleExtensionResponse_absent (conn : Nat) (msg : ExecMsg) (now : Nat)
    (s : BrokerState) (h : alGet msg.id s.pendingRequests = none) :
    handleExtensionResponse conn msg now s =
      ({ s with extension := touchActivity conn now s.extension }, []) := by
  simp [handleExtensionResponse, h]

theorem handleExtensionResponse_clears (conn : Nat) (msg : ExecMsg) (now : Nat)
    (s : BrokerState) :
    alGet msg.id (handleExtensionResponse conn msg now s).1.pendingRequests = none := by
  cases h : alGet msg.id s.pendingRequests with
  | none => simp [handleExtensionResponse, h]
  | some pr => simp [handleExtensionResponse, h, alGet_alErase_self]

/-- C1 (amended): an executor response whose id has no in-flight entry is
dropped: no frame is sent, and the request tables, counters and requester
partition are untouched — only the last-activity timestamp of the responding
executor entry is refreshed.  When the entry exists, the response
is forwarded exactly when the originating requester connection is still
open, and the in-flight entry is removed in the same step, so a second
response for the same id finds no entry and sends nothing. -/
theorem claim_C1 (s : BrokerState) (conn : Nat) (msg : ExecMsg) (now : Nat) :
    (alGet msg.id s.pendingRequests = none →
      handleExtensionResponse conn msg now s =
        ({ s with extension := touchActivity conn now s.extension }, [])) ∧
    (∀ pr, alGet msg.id s.pendingRequests = some pr →
      (handleExtensionResponse conn msg now s).2 =
        (if pr.client ∈ s.openConns then
          [⟨pr.client, Payload.respMsg msg.id msg.response msg.error⟩]
         else []) ∧
      alGet msg.id (handleExtensionResponse conn msg now s).1.pendingRequests = none) ∧
    (∀ (conn2 : Nat) (msg2 : ExecMsg) (now2 : Nat), msg2.id = msg.id →
      (handleExtensionResponse conn2 msg2 now2
        (handleExtensionResponse conn msg now s).1).2 = []) := by
  refine ⟨handleExtensionResponse_absent conn msg now s, ?_, ?_⟩
  · intro pr h
    constructor
    · simp only [handleExtensionResponse, h, sendToXfetch]
      split <;> rfl
    · exact handleExtensionResponse_clears conn msg now s
  · intro conn2 msg2 now2 hid
    have hnone : alGet msg2.id (handleExtensionResponse conn msg now s).1.pendingRequests = none := by
      rw [hid]
      exact handleExtensionResponse_clears conn msg now s
    rw [handleExtensionResponse_absent conn2 msg2 now2 _ hnone]

/-- A broker state with one open executor and an empty in-flight table. -/
def c1ex : BrokerState :=
  { brokerInit with extension := [(7, freshClientData 7 0)], openConns := [7] }

/-- C1 counterexample to the claim as stated: a late/duplicate executor
response sends nothing, but the broker state *does* change — the
last-activity timestamp of the executor entry is refreshed. -/
theorem claim_C1_cex :
    (handleExtensionResponse 7 ⟨("x"), none, none⟩ 5 c1ex).2 = [] ∧
    (handleExtensionResponse 7 ⟨("x"), none, none⟩ 5 c1ex).1 ≠ c1ex := by
  refine ⟨rfl, ?_⟩
  intro hEq
  have hext := congrArg BrokerState.extension hEq
  have h5 : (handleExtensionResponse 7 ⟨("x"), none, none⟩ 5 c1ex).1.extension =
      [(7, { freshClientData 7 0 with lastActivity := 5 })] := rfl
  rw [h5] at hext
  simp [c1ex, freshClientData] at hext

theorem claim_C1_witness :
    handleExtensionResponse 9 ⟨("y"), none, none⟩ 3 brokerInit = (brokerInit, []) :=
  (claim_C1 brokerInit 9 ⟨("y"), none, none⟩ 3).1 rfl

/-! ### C2: the no-executor retry window -/

theorem validate_noext_queue (msg : ReqMsg) (ws cid count now : Nat) (s : BrokerState)
    (hext : s.extension = []) (hcount : count < 3) :
    validateExtensionClients msg ws cid count now s =
      ({ s with queue := alSet msg.id ⟨ws, now, msg.id, msg.url, cid, msg, count, retryDelayMs⟩ s.queue },
       []) := by
  simp [validateExtensionClients, hext, hcount]

theorem validate_noext_fail (msg : ReqMsg) (ws cid count now : Nat) (s : BrokerState)
    (hext : s.extension = []) (hcount : 3 ≤ count) :
    validateExtensionClients msg ws cid count now s =
      ({ s with
          queue := alErase msg.id s.queue
          pendingRequests := alErase msg.id s.pendingRequests
          stats := { s.stats with
              requestsFailed := s.stats.requestsFailed + 1
              requestsProcessed := s.stats.requestsProcessed + 1 } },
       if ws ∈ s.openConns then [⟨ws, Payload.respMsg msg.id none (some noExtMsg)⟩] else []) := by
  have hnot : ¬ (count < 3) := by omega
  unfold validateExtensionClients
  rw [if_neg (by simp [hnot]), if_pos (by simp [hext, hcount])]
  simp only [sendToXfetch]
  split <;> rfl

theorem validate_sent (msg : ReqMsg) (ws cid count now : Nat) (s : BrokerState)
    (fr : List Frame) (hext : s.extension ≠ []) (hsend : sendToExtension s msg = (true, fr)) :
    validateExtensionClients msg ws cid count now s =
      ({ s with dispatched := msg.id :: s.dispatched }, fr) := by
  have hne : s.extension.isEmpty = false := by
    cases hx : s.extension with
    | nil => exact absurd hx hext
    | cons a t => rfl
  simp [validateExtensionClients, hne, hsend]

theorem retryTick_some (id : String) (now : Nat) (s : BrokerState) (e : QueueEntry)
    (h : alGet id s.queue = some e) :
    retryTick id now s =
      validateExtensionClients e.originalMessage e.client e.clientId (e.count + 1) now
        { s with queue := alErase id s.queue } := by
  simp [retryTick, h]

theorem handleXfetchRequest_eq (ws : Nat) (msg : ReqMsg) (cid now : Nat) (s : BrokerState) :
    handleXfetchRequest ws msg cid now s =
      validateExtensionClients msg ws cid 0 now
        { s with
            xfetch := touchActivity cid now s.xfetch
            pendingRequests :=
              alSet msg.id ⟨ws, now, msg.id, msg.url, msg.options, cid⟩ s.pendingRequests } := rfl

/-- The spec scenario state: one identified requester (conn 1), a second
channel (7) already open but not yet identified, zero executors. -/
def c2Init (t : Nat) : BrokerState :=
  { brokerInit with
      xfetch := [(1, freshClientData 1 t)]
      connType := [(1, Role.xfetch)]
      openConns := [1, 7] }

def c2msg (url opts id : String) : ReqMsg := ⟨url, opts, id⟩

def c2sub (url opts id : String) (t0 : Nat) : BrokerState × List Frame :=
  handleXfetchRequest 1 (c2msg url opts id) 1 t0 (c2Init t0)

def c2t1 (url opts id : String) (t0 t1 : Nat) : BrokerState × List Frame :=
  retryTick id t1 (c2sub url opts id t0).1

def c2t2 (url opts id : String) (t0 t1 t2 : Nat) : BrokerState × List Frame :=
  retryTick id t2 (c2t1 url opts id t0 t1).1

def c2t3 (url opts id : String) (t0 t1 t2 t3 : Nat) : BrokerState × List Frame :=
  retryTick id t3 (c2t2 url opts id t0 t1 t2).1

def c2identified (url opts id : String) (t0 tE : Nat) : BrokerState :=
  (handleClientIdentification Role.extension 7 tE (c2sub url opts id t0).1).1

def c2dispatch (url opts id : String) (t0 tE t1 : Nat) : BrokerState × List Frame :=
  retryTick id t1 (c2identified url opts id t0 tE)

/-- C2: submitting with zero executors queues the request (retry counter
0, fixed 2000 ms delay) next to its in-flight entry; each of the three
retry ticks under zero executors re-queues with counter 1 then 2; the tick
entering with counter 3 sends the single frame
`\x7bid, error: "No extension clients available after maximum retries",
response: null\x7d` to the requester and removes the id from both the
queued and the in-flight set (failure counters bumped once); if instead an
executor identifies during the window, the next tick dispatches the
original request to it. -/
theorem claim_C2 (url opts id : String) (t0 t1 t2 t3 tE : Nat) :
    (c2sub url opts id t0).2 = [] ∧
    alGet id (c2sub url opts id t0).1.queue =
      some ⟨1, t0, id, url, 1, c2msg url opts id, 0, 2000⟩ ∧
    alGet id (c2sub url opts id t0).1.pendingRequests = some ⟨1, t0, id, url, opts, 1⟩ ∧
    (c2t1 url opts id t0 t1).2 = [] ∧
    alGet id (c2t1 url opts id t0 t1).1.queue =
      some ⟨1, t1, id, url, 1, c2msg url opts id, 1, 2000⟩ ∧
    (c2t2 url opts id t0 t1 t2).2 = [] ∧
    alGet id (c2t2 url opts id t0 t1 t2).1.queue =
      some ⟨1, t2, id, url, 1, c2msg url opts id, 2, 2000⟩ ∧
    (c2t3 url opts id t0 t1 t2 t3).2 = [⟨1, Payload.respMsg id none (some noExtMsg)⟩] ∧
    alGet id (c2t3 url opts id t0 t1 t2 t3).1.queue = none ∧
    alGet id (c2t3 url opts id t0 t1 t2 t3).1.pendingRequests = none ∧
    (c2t3 url opts id t0 t1 t2 t3).1.stats.requestsFailed = 1 ∧
    (c2t3 url opts id t0 t1 t2 t3).1.stats.requestsProcessed = 1 ∧
    (c2dispatch url opts id t0 tE t1).2 = [⟨7, Payload.reqMsg url opts id⟩] ∧
    alGet id (c2dispatch url opts id t0 tE t1).1.queue = none ∧
    alGet id (c2dispatch url opts id t0 tE t1).1.pendingRequests =
      some ⟨1, t0, id, url, opts, 1⟩ ∧
    id ∈ (c2dispatch url opts id t0 tE t1).1.dispatched := by
  have hsub : c2sub url opts id t0 =
      ({ c2Init t0 with
          xfetch := touchActivity 1 t0 (c2Init t0).xfetch
          pendingRequests := [(id, ⟨1, t0, id, url, opts, 1⟩)]
          queue := [(id, ⟨1, t0, id, url, 1, c2msg url opts id, 0, retryDelayMs⟩)] }, []) := by
    rw [c2sub, handleXfetchRequest_eq, validate_noext_queue _ _ _ _ _ _ rfl (by omega)]
    rfl
  have hq0 : alGet id (c2sub url opts id t0).1.queue =
      some ⟨1, t0, id, url, 1, c2msg url opts id, 0, retryDelayMs⟩ := by
    rw [hsub]
    simp [alGet]
  have ht1 : c2t1 url opts id t0 t1 =
      ({ (c2sub url opts id t0).1 with
          queue := [(id, ⟨1, t1, id, url, 1, c2msg url opts id, 1, retryDelayMs⟩)] }, []) := by
    rw [c2t1, retryTick_some _ _ _ _ hq0,
      validate_noext_queue _ _ _ _ _ _ (by rw [hsub]; rfl) (by show (0 : Nat) + 1 < 3; omega)]
    rw [hsub]
    simp [alErase, alSet, c2msg]
  have hq1 : alGet id (c2t1 url opts id t0 t1).1.queue =
      some ⟨1, t1, id, url, 1, c2msg url opts id, 1, retryDelayMs⟩ := by
    rw [ht1]
    simp [alGet]
  have ht2 : c2t2 url opts id t0 t1 t2 =
      ({ (c2sub url opts id t0).1 with
          queue := [(id, ⟨1, t2, id, url, 1, c2msg url opts id, 2, retryDelayMs⟩)] }, []) := by
    rw [c2t2, retryTick_some _ _ _ _ hq1,
      validate_noext_queue _ _ _ _ _ _ (by rw [ht1, hsub]; rfl) (by show (1 : Nat) + 1 < 3; omega)]
    rw [ht1, hsub]
    simp [alErase, alSet, c2msg]
  have hq2 : alGet id (c2t2 url opts id t0 t1 t2).1.queue =
      some ⟨1, t2, id, url, 1, c2msg url opts id, 2, retryDelayMs⟩ := by
    rw [ht2]
    simp [alGet]
  have ht3 : c2t3 url opts id t0 t1 t2 t3 =
      ({ (c2sub url opts id t0).1 with
          queue := []
          pendingRequests := []
          stats := { (c2sub url opts id t0).1.stats with
              requestsFailed := (c2sub url opts id t0).1.stats.requestsFailed + 1
              requestsProcessed := (c2sub url opts id t0).1.stats.requestsProcessed + 1 } },
       [⟨1, Payload.respMsg id none (some noExtMsg)⟩]) := by
    rw [c2t3, retryTick_some _ _ _ _ hq2,
      validate_noext_fail _ _ _ _ _ _ (by rw [ht2, hsub]; rfl) (by show 3 ≤ (2 : Nat) + 1; omega)]
    rw [ht2, hsub]
    simp [alErase, alSet, alGet, c2msg, c2Init]
  have hqE : alGet id (c2identified url opts id t0 tE).queue =
      some ⟨1, t0, id, url, 1, c2msg url opts id, 0, retryDelayMs⟩ := by
    rw [c2identified, hsub]
    simp [handleClientIdentification, BrokerState.setClients, BrokerState.clientsOf,
      c2Init, brokerInit, alGet, alSet]
  have hdisp : c2dispatch url opts id t0 tE t1 =
      ({ { (c2identified url opts id t0 tE) with
            queue := alErase id (c2identified url opts id t0 tE).queue } with
          dispatched := id :: [] }, [⟨7, Payload.reqMsg url opts id⟩]) := by
    rw [c2dispatch, retryTick_some _ _ _ _ hqE]
    rw [validate_sent _ _ _ _ _ _ _ ?hne ?hsend]
    case hne =>
      rw [c2identified, hsub]
      simp [handleClientIdentification, BrokerState.setClients, BrokerState.clientsOf,
        c2Init, brokerInit, alGet, alSet]
    case hsend =>
      rw [c2identified, hsub]
      rfl
    rfl
  refine ⟨by rw [hsub], by rw [hq0]; rfl, ?_, by rw [ht1], by rw [hq1]; rfl,
    by rw [ht2], by rw [hq2]; rfl, by rw [ht3], by rw [ht3]; rfl, by rw [ht3]; rfl,
    by rw [ht3, hsub]; rfl, by rw [ht3, hsub]; rfl, by rw [hdisp], ?_, ?_, ?_⟩
  · rw [hsub]
    simp [alGet]
  · rw [hdisp]
    show alGet id (alErase id (c2identified url opts id t0 tE).queue) = none
    exact alGet_alErase_self id _
  · rw [hdisp]
    show alGet id (c2identified url opts id t0 tE).pendingRequests = _
    rw [c2identified, hsub]
    simp [handleClientIdentification, BrokerState.setClients, BrokerState.clientsOf,
      c2Init, brokerInit, alGet, alSet]
  · rw [hdisp]
    simp

/-! ### C3: the relation between the queued and the in-flight table -/

theorem alGet_mem {κ α : Type} [DecidableEq κ] {k : κ} {v : α} :
    ∀ {l : List (κ × α)}, alGet k l = some v → (k, v) ∈ l := by
  intro l
  induction l with
  | nil => intro h; simp [alGet] at h
  | cons p rest ih =>
    intro h
    by_cases hp : p.1 = k
    · have hv : p.2 = v := by simpa [alGet, hp] using h
      have hpv : p = (k, v) := Prod.ext hp hv
      rw [← hpv]
      exact List.mem_cons_self p rest
    · exact List.mem_cons_of_mem p (ih (by simpa [alGet, hp] using h))

theorem setClients_queue (s : BrokerState) (role : Role) (m : List (Nat × ClientData)) :
    (s.setClients role m).queue = s.queue := by cases role <;> rfl

theorem setClients_pending (s : BrokerState) (role : Role) (m : List (Nat × ClientData)) :
    (s.setClients role m).pendingRequests = s.pendingRequests := by cases role <;> rfl

theorem setClients_open (s : BrokerState) (role : Role) (m : List (Nat × ClientData)) :
    (s.setClients role m).openConns = s.openConns := by cases role <;> rfl

theorem setClients_dispatched (s : BrokerState) (role : Role) (m : List (Nat × ClientData)) :
    (s.setClients role m).dispatched = s.dispatched := by cases role <;> rfl

/-- Every queued id whose requester channel is still open also has an
in-flight entry, with the same originating connection. -/
def QueueInFlight (s : BrokerState) : Prop :=
  ∀ id e, alGet id s.queue = some e → e.client ∈ s.openConns →
    ∃ pr, alGet id s.pendingRequests = some pr ∧ pr.client = e.client

/-- Once dispatched to an executor, an id is never in the queued table. -/
def DispatchedNotQueued (s : BrokerState) : Prop :=
  ∀ id, id ∈ s.dispatched → alGet id s.queue = none

/-- Queue entries store the message they were queued under. -/
def QueueKeyConsistent (s : BrokerState) : Prop :=
  ∀ id e, alGet id s.queue = some e → e.originalMessage.id = id

def RouterInv (s : BrokerState) : Prop :=
  QueueInFlight s ∧ DispatchedNotQueued s ∧ QueueKeyConsistent s

theorem routerInv_eq (s s' : BrokerState)
    (hq : s'.queue = s.queue) (hp : s'.pendingRequests = s.pendingRequests)
    (ho : s'.openConns = s.openConns) (hd : s'.dispatched = s.dispatched)
    (hinv : RouterInv s) : RouterInv s' := by
  obtain ⟨h1, h2, h3⟩ := hinv
  refine ⟨?_, ?_, ?_⟩
  · intro id e hget hopen
    rw [hp]
    exact h1 id e (by rwa [hq] at hget) (by rwa [ho] at hopen)
  · intro id hdid
    rw [hq]
    exact h2 id (by rwa [hd] at hdid)
  · intro id e hget
    exact h3 id e (by rwa [hq] at hget)

theorem routerInv_eraseBoth (k : String) (s s' : BrokerState)
    (hq : s'.queue = alErase k s.queue)
    (hp : s'.pendingRequests = alErase k s.pendingRequests)
    (ho : s'.openConns = s.openConns) (hd : s'.dispatched = s.dispatched)
    (hinv : RouterInv s) : RouterInv s' := by
  obtain ⟨h1, h2, h3⟩ := hinv
  refine ⟨?_, ?_, ?_⟩
  · intro id e hget hopen
    rw [hq] at hget
    by_cases hid : id = k
    · subst hid
      rw [alGet_alErase_self] at hget
      exact absurd hget (by simp)
    · have hne : k ≠ id := fun h => hid h.symm
      rw [alGet_alErase_ne _ _ _ hne] at hget
      obtain ⟨pr, hpr, hc⟩ := h1 id e hget (by rwa [ho] at hopen)
      exact ⟨pr, by rw [hp, alGet_alErase_ne _ _ _ hne]; exact hpr, hc⟩
  · intro id hdid
    rw [hq]
    by_cases hid : id = k
    · subst hid
      exact alGet_alErase_self _ _
    · have hne : k ≠ id := fun h => hid h.symm
      rw [alGet_alErase_ne _ _ _ hne]
      exact h2 id (by rwa [hd] at hdid)
  · intro id e hget
    rw [hq] at hget
    by_cases hid : id = k
    · subst hid
      rw [alGet_alErase_self] at hget
      exact absurd hget (by simp)
    · have hne : k ≠ id := fun h => hid h.symm
      rw [alGet_alErase_ne _ _ _ hne] at hget
      exact h3 id e hget

theorem routerInv_queueErase (k : String) (s s' : BrokerState)
    (hq : s'.queue = alErase k s.queue)
    (hp : s'.pendingRequests = s.pendingRequests)
    (ho : s'.openConns = s.openConns) (hd : s'.dispatched = s.dispatched)
    (hinv : RouterInv s) : RouterInv s' := by
  obtain ⟨h1, h2, h3⟩ := hinv
  refine ⟨?_, ?_, ?_⟩
  · intro id e hget hopen
    rw [hq] at hget
    by_cases hid : id = k
    · subst hid
      rw [alGet_alErase_self] at hget
      exact absurd hget (by simp)
    · have hne : k ≠ id := fun h => hid h.symm
      rw [alGet_alErase_ne _ _ _ hne] at hget
      rw [hp]
      exact h1 id e hget (by rwa [ho] at hopen)
  · intro id hdid
    rw [hq]
    by_cases hid : id = k
    · subst hid
      exact alGet_alErase_self _ _
    · have hne : k ≠ id := fun h => hid h.symm
      rw [alGet_alErase_ne _ _ _ hne]
      exact h2 id (by rwa [hd] at hdid)
  · intro id e hget
    rw [hq] at hget
    by_cases hid : id = k
    · subst hid
      rw [alGet_alErase_self] at hget
      exact absurd hget (by simp)
    · have hne : k ≠ id := fun h => hid h.symm
      rw [alGet_alErase_ne _ _ _ hne] at hget
      exact h3 id e hget

theorem routerInv_pendSet (k : String) (v : PendingReq) (s s' : BrokerState)
    (hq : s'.queue = s.queue)
    (hp : s'.pendingRequests = alSet k v s.pendingRequests)
    (ho : s'.openConns = s.openConns) (hd : s'.dispatched = s.dispatched)
    (hqk : alGet k s.queue = none) (hinv : RouterInv s) : RouterInv s' := by
  obtain ⟨h1, h2, h3⟩ := hinv
  refine ⟨?_, ?_, ?_⟩
  · intro id e hget hopen
    rw [hq] at hget
    by_cases hid : id = k
    · subst hid
      rw [hqk] at hget
      exact absurd hget (by simp)
    · have hne : k ≠ id := fun h => hid h.symm
      obtain ⟨pr, hpr, hc⟩ := h1 id e hget (by rwa [ho] at hopen)
      exact ⟨pr, by rw [hp, alGet_alSet_ne _ _ _ _ hne]; exact hpr, hc⟩
  · intro id hdid
    rw [hq]
    exact h2 id (by rwa [hd] at hdid)
  · intro id e hget
    exact h3 id e (by rwa [hq] at hget)

theorem routerInv_pendErase (k : String) (s s' : BrokerState)
    (hq : s'.queue = s.queue)
    (hp : s'.pendingRequests = alErase k s.pendingRequests)
    (ho : s'.openConns = s.openConns) (hd : s'.dispatched = s.dispatched)
    (hqk : alGet k s.queue = none) (hinv : RouterInv s) : RouterInv s' := by
  obtain ⟨h1, h2, h3⟩ := hinv
  refine ⟨?_, ?_, ?_⟩
  · intro id e hget hopen
    rw [hq] at hget
    by_cases hid : id = k
    · subst hid
      rw [hqk] at hget
      exact absurd hget (by simp)
    · have hne : k ≠ id := fun h => hid h.symm
      obtain ⟨pr, hpr, hc⟩ := h1 id e hget (by rwa [ho] at hopen)
      exact ⟨pr, by rw [hp, alGet_alErase_ne _ _ _ hne]; exact hpr, hc⟩
  · intro id hdid
    rw [hq]
    exact h2 id (by rwa [hd] at hdid)
  · intro id e hget
    exact h3 id e (by rwa [hq] at hget)

theorem routerInv_queueSet (k : String) (e : QueueEntry) (s s' : BrokerState)
    (hq : s'.queue = alSet k e s.queue) (hp : s'.pendingRequests = s.pendingRequests)
    (ho : s'.openConns = s.openConns) (hd : s'.dispatched = s.dispatched)
    (hkey : e.originalMessage.id = k)
    (hdq : k ∉ s.dispatched)
    (hpend : e.client ∈ s.openConns → ∃ pr, alGet k s.pendingRequests = some pr ∧ pr.client = e.client)
    (hinv : RouterInv s) : RouterInv s' := by
  obtain ⟨h1, h2, h3⟩ := hinv
  refine ⟨?_, ?_, ?_⟩
  · intro id en hget hopen
    rw [hq] at hget
    rw [ho] at hopen
    rw [hp]
    by_cases hid : id = k
    · subst hid
      rw [alGet_alSet_self] at hget
      have hen : e = en := Option.some.inj hget
      subst hen
      exact hpend hopen
    · have hne : k ≠ id := fun h => hid h.symm
      rw [alGet_alSet_ne _ _ _ _ hne] at hget
      exact h1 id en hget hopen
  · intro id hdid
    rw [hd] at hdid
    rw [hq]
    by_cases hid : id = k
    · subst hid
      exact absurd hdid hdq
    · have hne : k ≠ id := fun h => hid h.symm
      rw [alGet_alSet_ne _ _ _ _ hne]
      exact h2 id hdid
  · intro id en hget
    rw [hq] at hget
    by_cases hid : id = k
    · subst hid
      rw [alGet_alSet_self] at hget
      have hen : e = en := Option.some.inj hget
      subst hen
      exact hkey
    · have hne : k ≠ id := fun h => hid h.symm
      rw [alGet_alSet_ne _ _ _ _ hne] at hget
      exact h3 id en hget

theorem routerInv_dispatchCons (k : String) (s s' : BrokerState)
    (hq : s'.queue = s.queue) (hp : s'.pendingRequests = s.pendingRequests)
    (ho : s'.openConns = s.openConns) (hd : s'.dispatched = k :: s.dispatched)
    (hqk : alGet k s.queue = none) (hinv : RouterInv s) : RouterInv s' := by
  obtain ⟨h1, h2, h3⟩ := hinv
  refine ⟨?_, ?_, ?_⟩
  · intro id en hget hopen
    rw [hq] at hget
    rw [hp]
    exact h1 id en hget (by rwa [ho] at hopen)
  · intro id hdid
    rw [hd] at hdid
    rw [hq]
    rcases List.mem_cons.mp hdid with rfl | hdid'
    · exact hqk
    · exact h2 id hdid'
  · intro id en hget
    exact h3 id en (by rwa [hq] at hget)

theorem validate_notsent (msg : ReqMsg) (ws cid count now : Nat) (s : BrokerState)
    (fr : List Frame) (hext : s.extension ≠ []) (hsend : sendToExtension s msg = (false, fr)) :
    (validateExtensionClients msg ws cid count now s).1 =
      (match alGet cid s.xfetch with
       | none =>
         { s with
            queue := alErase msg.id s.queue
            pendingRequests := alErase msg.id s.pendingRequests
            stats := { s.stats with
                requestsFailed := s.stats.requestsFailed + 1
                requestsProcessed := s.stats.requestsProcessed + 1 } }
       | some cd =>
         { s with
            queue := alErase msg.id s.queue
            pendingRequests := alErase msg.id s.pendingRequests
            stats := { s.stats with
                requestsFailed := s.stats.requestsFailed + 1
                requestsProcessed := s.stats.requestsProcessed + 1 }
            xfetch := alSet cid
              { cd with
                  requestsProcessed := cd.requestsProcessed + 1
                  requestsFailed := cd.requestsFailed + 1 } s.xfetch }) := by
  have hne : s.extension.isEmpty = false := by
    cases hx : s.extension with
    | nil => exact absurd hx hext
    | cons a t => rfl
  unfold validateExtensionClients
  rw [if_neg (by simp [hne]), if_neg (by simp [hne]), if_pos (by simp [hne]), hsend]

theorem validate_inv (msg : ReqMsg) (ws cid count now : Nat) (s : BrokerState)
    (hinv : RouterInv s)
    (hpend : ws ∈ s.openConns → ∃ pr, alGet msg.id s.pendingRequests = some pr ∧ pr.client = ws)
    (hdq : msg.id ∉ s.dispatched)
    (hq0 : alGet msg.id s.queue = none) :
    RouterInv (validateExtensionClients msg ws cid count now s).1 := by
  by_cases hext : s.extension = []
  · by_cases hcount : count < 3
    · rw [validate_noext_queue _ _ _ _ _ _ hext hcount]
      exact routerInv_queueSet msg.id _ s _ rfl rfl rfl rfl rfl hdq hpend hinv
    · rw [validate_noext_fail _ _ _ _ _ _ hext (by omega)]
      exact routerInv_eraseBoth msg.id s _ rfl rfl rfl rfl hinv
  · cases hsend : sendToExtension s msg with
    | mk sent fr =>
      cases sent with
      | true =>
        rw [validate_sent _ _ _ _ _ _ _ hext hsend]
        exact routerInv_dispatchCons msg.id s _ rfl rfl rfl rfl hq0 hinv
      | false =>
        rw [validate_notsent _ _ _ _ _ s fr hext hsend]
        cases halg : alGet cid s.xfetch with
        | none =>
          simp only [halg]
          exact routerInv_eraseBoth msg.id s _ rfl rfl rfl rfl hinv
        | some cd =>
          simp only [halg]
          exact routerInv_eraseBoth msg.id s _ rfl rfl rfl rfl hinv

theorem routerInv_purgeConn (c : Nat) (s s' : BrokerState)
    (hq : s'.queue = s.queue)
    (hp : s'.pendingRequests = s.pendingRequests.filter (fun p => p.2.client != c))
    (ho : s'.openConns = s.openConns.filter (fun x => x != c))
    (hd : s'.dispatched = s.dispatched)
    (hinv : RouterInv s) : RouterInv s' := by
  obtain ⟨h1, h2, h3⟩ := hinv
  refine ⟨?_, ?_, ?_⟩
  · intro id en hget hopen
    rw [hq] at hget
    rw [ho] at hopen
    rw [hp]
    have hmem := List.mem_filter.mp hopen
    have hneq : en.client ≠ c := by simpa using hmem.2
    obtain ⟨pr, hpr, hc⟩ := h1 id en hget hmem.1
    refine ⟨pr, ?_, hc⟩
    exact alGet_filter id pr (fun prr => prr.client != c) s.pendingRequests hpr
      (by simp [hc, hneq])
  · intro id hdid
    rw [hq]
    exact h2 id (by rwa [hd] at hdid)
  · intro id en hget
    exact h3 id en (by rwa [hq] at hget)

theorem inv_handleXfetchRequest (ws : Nat) (msg : ReqMsg) (cid now : Nat) (s : BrokerState)
    (hinv : RouterInv s) (hfresh : freshId msg.id s) :
    RouterInv (handleXfetchRequest ws msg cid now s).1 := by
  obtain ⟨hfp, hfq, hfd⟩ := hfresh
  rw [handleXfetchRequest_eq]
  apply validate_inv
  · exact routerInv_pendSet msg.id _ s _ rfl rfl rfl rfl hfq hinv
  · intro hopen
    refine ⟨⟨ws, now, msg.id, msg.url, msg.options, cid⟩, ?_, rfl⟩
    show alGet msg.id (alSet msg.id _ s.pendingRequests) = _
    rw [alGet_alSet_self]
  · exact hfd
  · exact hfq

theorem inv_retryTick (id : String) (now : Nat) (s : BrokerState) (hinv : RouterInv s) :
    RouterInv (retryTick id now s).1 := by
  cases hq : alGet id s.queue with
  | none =>
    have heq : retryTick id now s = (s, []) := by simp [retryTick, hq]
    rw [heq]
    exact hinv
  | some e =>
    rw [retryTick_some _ _ _ _ hq]
    have hkey : e.originalMessage.id = id := hinv.2.2 id e hq
    apply validate_inv
    · exact routerInv_queueErase id s _ rfl rfl rfl rfl hinv
    · intro hopen
      rw [hkey]
      exact hinv.1 id e hq hopen
    · rw [hkey]
      intro hmem
      have hnone := hinv.2.1 id hmem
      rw [hq] at hnone
      exact Option.noConfusion hnone
    · rw [hkey]
      show alGet id (alErase id s.queue) = none
      exact alGet_alErase_self id _

theorem inv_handleExtensionResponse (conn : Nat) (msg : ExecMsg) (now : Nat) (s : BrokerState)
    (hinv : RouterInv s) (hd : msg.id ∈ s.dispatched) :
    RouterInv (handleExtensionResponse conn msg now s).1 := by
  cases hp : alGet msg.id s.pendingRequests with
  | none =>
    rw [handleExtensionResponse_absent _ _ _ _ hp]
    exact routerInv_eq s _ rfl rfl rfl rfl hinv
  | some pr =>
    have hqk : alGet msg.id s.queue = none := hinv.2.1 msg.id hd
    apply routerInv_pendErase msg.id s _ ?hq ?hpe ?ho ?hdi hqk hinv
    case hq =>
      simp only [handleExtensionResponse, hp]
      split <;> split <;> rfl
    case hpe =>
      simp only [handleExtensionResponse, hp]
      split <;> split <;> rfl
    case ho =>
      simp only [handleExtensionResponse, hp]
      split <;> split <;> rfl
    case hdi =>
      simp only [handleExtensionResponse, hp]
      split <;> split <;> rfl

theorem inv_handleClose (role : Role) (conn : Nat) (s : BrokerState) (hinv : RouterInv s) :
    RouterInv (handleClose role conn s).1 := by
  apply routerInv_purgeConn conn s _ ?hq ?hpe ?ho ?hdi hinv
  case hq => simp only [handleClose, setClients_queue]
  case hpe => simp only [handleClose, setClients_pending]
  case ho => simp only [handleClose, setClients_open]
  case hdi => simp only [handleClose, setClients_dispatched]

theorem inv_checkHealth (role : Role) (conn : Nat) (s : BrokerState) (hinv : RouterInv s) :
    RouterInv (checkClientHealthStep role conn s) := by
  cases halg : alGet conn (s.clientsOf role) with
  | none =>
    simp only [checkClientHealthStep, halg]
    exact hinv
  | some cd =>
    simp only [checkClientHealthStep, halg]
    split
    · apply routerInv_purgeConn cd.client s _ ?hq ?hpe ?ho ?hdi hinv
      case hq => simp only [setClients_queue]
      case hpe => simp only [setClients_pending]
      case ho => simp only [setClients_open]
      case hdi => simp only [setClients_dispatched]
    · exact hinv

theorem inv_handleConnect (conn : Nat) (s : BrokerState) (hinv : RouterInv s)
    (hf : freshConn conn s) : RouterInv (handleConnect conn s).1 := by
  obtain ⟨h1, h2, h3⟩ := hinv
  obtain ⟨ho1, ho2, ho3, ho4, ho5, ho6⟩ := hf
  refine ⟨?_, ?_, ?_⟩
  · intro id en hget hopen
    have hget' : alGet id s.queue = some en := hget
    have hopen' : en.client ∈ conn :: s.openConns := hopen
    rcases List.mem_cons.mp hopen' with heq | hm
    · exact absurd heq (ho6 (id, en) (alGet_mem hget'))
    · exact h1 id en hget' hm
  · intro id hdid
    exact h2 id hdid
  · intro id en hget
    exact h3 id en hget

theorem inv_identify (role : Role) (conn now : Nat) (s : BrokerState) (hinv : RouterInv s) :
    RouterInv (handleClientIdentification role conn now s).1 := by
  apply routerInv_eq s _ ?hq ?hpe ?ho ?hdi hinv
  case hq =>
    simp only [handleClientIdentification]
    split <;> simp only [setClients_queue]
  case hpe =>
    simp only [handleClientIdentification]
    split <;> simp only [setClients_pending]
  case ho =>
    simp only [handleClientIdentification]
    split <;> simp only [setClients_open]
  case hdi =>
    simp only [handleClientIdentification]
    split <;> simp only [setClients_dispatched]

theorem inv_pong (conn now : Nat) (s : BrokerState) (hinv : RouterInv s) :
    RouterInv (handlePongResponse conn now s) := by
  cases h1 : alGet conn s.connType with
  | none =>
    simp only [handlePongResponse, h1]
    exact hinv
  | some role =>
    cases h2 : alGet conn (s.clientsOf role) with
    | none =>
      simp only [handlePongResponse, h1, h2]
      exact hinv
    | some cd =>
      apply routerInv_eq s _ ?hq ?hpe ?ho ?hdi hinv
      case hq => simp only [handlePongResponse, h1, h2, setClients_queue]
      case hpe => simp only [handlePongResponse, h1, h2, setClients_pending]
      case ho => simp only [handlePongResponse, h1, h2, setClients_open]
      case hdi => simp only [handlePongResponse, h1, h2, setClients_dispatched]

theorem inv_heartbeat (role : Role) (now : Nat) (s : BrokerState) (hinv : RouterInv s) :
    RouterInv (sendHeartbeats role now s) := by
  apply routerInv_eq s _ ?hq ?hpe ?ho ?hdi hinv
  case hq => simp only [sendHeartbeats, setClients_queue]
  case hpe => simp only [sendHeartbeats, setClients_pending]
  case ho => simp only [sendHeartbeats, setClients_open]
  case hdi => simp only [sendHeartbeats, setClients_dispatched]

theorem inv_pongTimeout (role : Role) (conn : Nat) (s : BrokerState) (hinv : RouterInv s) :
    RouterInv (pongTimeoutStep role conn s) := by
  cases halg : alGet conn (s.clientsOf role) with
  | none =>
    simp only [pongTimeoutStep, halg]
    exact hinv
  | some cd =>
    simp only [pongTimeoutStep, halg]
    split
    · apply routerInv_eq s _ ?hq ?hpe ?ho ?hdi hinv
      case hq => simp only [setClients_queue]
      case hpe => simp only [setClients_pending]
      case ho => simp only [setClients_open]
      case hdi => simp only [setClients_dispatched]
    · exact hinv

theorem routerInv_brokerInit : RouterInv brokerInit := by
  refine ⟨?_, ?_, ?_⟩
  · intro id e hget hopen
    simp [brokerInit, alGet] at hget
  · intro id hdid
    simp [brokerInit] at hdid
  · intro id e hget
    simp [brokerInit, alGet] at hget

theorem routerInv_reachable (s : BrokerState) (h : ReachableB s) : RouterInv s := by
  unfold ReachableB at h
  induction h with
  | refl => exact routerInv_brokerInit
  | tail hsteps hstep ih =>
    cases hstep with
    | connect conn _ hc => exact inv_handleConnect conn _ ih hc
    | identify role conn now _ hc => exact inv_identify role conn now _ ih
    | submit ws msg now _ hws hfresh => exact inv_handleXfetchRequest ws msg ws now _ ih hfresh
    | tick id now _ => exact inv_retryTick id now _ ih
    | response conn msg now _ hrole hd => exact inv_handleExtensionResponse conn msg now _ ih hd
    | closes role conn _ hrole => exact inv_handleClose role conn _ ih
    | heartbeat role now _ => exact inv_heartbeat role now _ ih
    | pongTimeout role conn _ => exact inv_pongTimeout role conn _ ih
    | pong conn now _ => exact inv_pong conn now _ ih
    | health role conn _ => exact inv_checkHealth role conn _ ih

/-- C3 (amended): in every reachable broker state (under the
caller-unique-id contract and the executor contract of answering only
dispatched ids), a queued request id whose requester connection is still
open is ALSO in the in-flight table — with the same originating
connection — rather than in-flight XOR queued; and once an id has been
dispatched to an executor it never has a queued entry. -/
theorem claim_C3 (s : BrokerState) (h : ReachableB s) :
    (∀ id e, alGet id s.queue = some e → e.client ∈ s.openConns →
       ∃ pr, alGet id s.pendingRequests = some pr ∧ pr.client = e.client) ∧
    (∀ id, id ∈ s.dispatched → alGet id s.queue = none) :=
  ⟨(routerInv_reachable s h).1, (routerInv_reachable s h).2.1⟩

/-- The spec scenario, step by step from the empty broker: two channels
connect, channel 1 identifies as a requester and submits request r1 while
no executor is registered. -/
def c3s1 : BrokerState := (handleConnect 1 brokerInit).1

def c3s2 : BrokerState := (handleConnect 7 c3s1).1

def c3s3 : BrokerState := (handleClientIdentification Role.xfetch 1 3 c3s2).1

def c3msg : ReqMsg := ⟨("https://a.test"), ("o"), ("r1")⟩

def c3ex : BrokerState := (handleXfetchRequest 1 c3msg 1 5 c3s3).1

theorem reachable_c3ex : ReachableB c3ex := by
  have h1 : BStep brokerInit c3s1 := BStep.connect 1 brokerInit (by decide)
  have h2 : BStep c3s1 c3s2 := BStep.connect 7 c3s1 (by decide)
  have h3 : BStep c3s2 c3s3 := BStep.identify Role.xfetch 1 3 c3s2 (by decide)
  have h4 : BStep c3s3 c3ex := BStep.submit 1 c3msg 5 c3s3 (by decide) (by decide)
  exact Relation.ReflTransGen.tail
    (Relation.ReflTransGen.tail
      (Relation.ReflTransGen.tail (Relation.ReflTransGen.single h1) h2) h3) h4

/-- C3 counterexample to the claim as stated: a reachable broker state in
which request r1 is simultaneously in the queued AND the in-flight table
(the XOR fails). -/
theorem claim_C3_cex :
    ReachableB c3ex ∧
    (alGet ("r1") c3ex.queue).isSome = true ∧
    (alGet ("r1") c3ex.pendingRequests).isSome = true :=
  ⟨reachable_c3ex, rfl, rfl⟩

theorem claim_C3_witness :
    ∃ pr, alGet ("r1") c3ex.pendingRequests = some pr ∧ pr.client = 1 :=
  (claim_C3 c3ex reachable_c3ex).1 ("r1") ⟨1, 5, ("r1"), ("https://a.test"), 1, c3msg, 0, 2000⟩
    (by decide) (by decide)

/-! ### C4: the per-connection heartbeat health machine -/

/-- Shape invariant of heartbeat records the broker actually produces: a
critical record has its missed counter either at/above the ceiling (just
crossed it) or at 0 (reset by a pong that did not restore health). -/
def HBInv (cd : ClientData) : Prop :=
  cd.healthStatus = Health.critical →
    cd.missedHeartbeats = 0 ∨ maxMissed ≤ cd.missedHeartbeats

theorem hbInv_step (cd : ClientData) (e : HBEvent) (h : HBInv cd) : HBInv (hbStep cd e) := by
  cases e with
  | ping now =>
    intro hc
    exact h hc
  | pongTimeout =>
    intro hc
    simp only [hbStep, pongTimeoutFire] at hc ⊢
    by_cases hw : cd.awaitingPong
    · simp only [hw, Bool.true_and, if_true, Bool.and_true] at hc ⊢
      by_cases hm : maxMissed ≤ cd.missedHeartbeats + 1
      · right
        simp [hm]
      · simp [hm] at hc
    · simp only [hw] at hc ⊢
      simp only [Bool.false_and, if_neg] at hc ⊢
      exact h (by simpa using hc)
  | pong now =>
    intro hc
    left
    rfl

theorem hbInv_run (cd : ClientData) (evs : List HBEvent) (h : HBInv cd) :
    HBInv (hbRun cd evs) := by
  induction evs generalizing cd with
  | nil => exact h
  | cons e rest ih => exact ih (hbStep cd e) (hbInv_step cd e h)

theorem pongReceive_health (cd : ClientData) (now : Nat) :
    (pongReceive now cd).healthStatus =
      (if 0 < cd.missedHeartbeats ∧ cd.missedHeartbeats < maxMissed then Health.healthy
       else cd.healthStatus) := by
  simp only [pongReceive]
  split <;> rfl

theorem pongReceive_missed (cd : ClientData) (now : Nat) :
    (pongReceive now cd).missedHeartbeats = 0 := rfl

/-- C4 (amended): for every heartbeat record the broker can actually reach
(any event sequence from a fresh record), a pong reception alone never
moves a critical connection backward — it stays critical, with the missed
counter reset to 0 — and a pong restores `healthy` exactly when
`0 < missedHeartbeats < maxMissed` held (or it already was healthy).
(Critical is nevertheless escapable across a pong followed by a later
pong-timeout, which the counterexample exhibits.) -/
theorem claim_C4 (conn t0 : Nat) (evs : List HBEvent) (now : Nat)
    (hcrit : (hbRun (freshClientData conn t0) evs).healthStatus = Health.critical) :
    (pongReceive now (hbRun (freshClientData conn t0) evs)).healthStatus = Health.critical ∧
    (pongReceive now (hbRun (freshClientData conn t0) evs)).missedHeartbeats = 0 ∧
    ((pongReceive now (hbRun (freshClientData conn t0) evs)).healthStatus = Health.healthy ↔
      (0 < (hbRun (freshClientData conn t0) evs).missedHeartbeats ∧
        (hbRun (freshClientData conn t0) evs).missedHeartbeats < maxMissed)) := by
  set cd := hbRun (freshClientData conn t0) evs with hcd
  have hinv : HBInv cd := by
    apply hbInv_run
    intro h
    simp [freshClientData] at h
  have hnot : ¬ (0 < cd.missedHeartbeats ∧ cd.missedHeartbeats < maxMissed) := by
    rcases hinv hcrit with h0 | hge
    · omega
    · omega
  refine ⟨?_, pongReceive_missed cd now, ?_⟩
  · rw [pongReceive_health, if_neg hnot, hcrit]
  · rw [pongReceive_health, if_neg hnot, hcrit]
    constructor
    · intro h
      exact absurd h (by decide)
    · intro h
      exact absurd h hnot

/-- A concrete critical record: three consecutive missed heartbeats. -/
def hbCriticalEx : ClientData :=
  hbRun (freshClientData 1 0)
    [HBEvent.ping 0, HBEvent.pongTimeout, HBEvent.ping 1, HBEvent.pongTimeout,
     HBEvent.ping 2, HBEvent.pongTimeout]

/-- C4 counterexample to the claim as stated: from a reachable critical
record, the sequence pong-then-missed-heartbeat transitions backward to
`degraded`, and one more pong restores `healthy`. -/
theorem claim_C4_cex :
    hbCriticalEx.healthStatus = Health.critical ∧
    (hbRun hbCriticalEx [HBEvent.pong 3, HBEvent.ping 4, HBEvent.pongTimeout]).healthStatus =
      Health.degraded ∧
    (hbRun hbCriticalEx
        [HBEvent.pong 3, HBEvent.ping 4, HBEvent.pongTimeout, HBEvent.pong 5]).healthStatus =
      Health.healthy := by
  refine ⟨rfl, rfl, rfl⟩

/-! ### C5: executor selection -/

theorem entryScore_nonneg (e : Nat × ClientData) : 0 ≤ entryScore e := by
  cases h : e.2.healthStatus <;> simp [entryScore, healthScoreInt, h]

theorem entryScore_le_two (e : Nat × ClientData) : entryScore e ≤ 2 := by
  cases h : e.2.healthStatus <;> simp [entryScore, healthScoreInt, h]

theorem maxScoreL_cons (e : Nat × ClientData) (l : List (Nat × ClientData)) :
    maxScoreL (e :: l) = max (entryScore e) (maxScoreL l) := rfl

theorem le_maxScoreL_of_mem {e : Nat × ClientData} {l : List (Nat × ClientData)}
    (h : e ∈ l) : entryScore e ≤ maxScoreL l := by
  induction l with
  | nil => cases h
  | cons a t ih =>
    rw [maxScoreL_cons]
    rcases List.mem_cons.mp h with rfl | h'
    · exact le_max_left _ _
    · exact le_trans (ih h') (le_max_right _ _)

theorem maxScoreL_le_two (l : List (Nat × ClientData)) : maxScoreL l ≤ 2 := by
  induction l with
  | nil => norm_num [maxScoreL]
  | cons a t ih =>
    rw [maxScoreL_cons]
    exact max_le (entryScore_le_two a) ih

theorem firstAtMax_singleton_cons (c : Nat × ClientData) (t : List (Nat × ClientData))
    (h : maxScoreL t ≤ entryScore c) : firstAtMax (c :: t) = some c := by
  have h0 := entryScore_nonneg c
  have hM : maxScoreL (c :: t) = entryScore c := by
    rw [maxScoreL_cons]; omega
  have hp : (entryScore c == maxScoreL (c :: t)) = true := by
    rw [hM]; simp
  simp [firstAtMax, List.find?_cons, hp]

theorem firstAtMax_cons_drop (c e : Nat × ClientData) (t : List (Nat × ClientData))
    (h : entryScore e ≤ entryScore c) :
    firstAtMax (c :: e :: t) = firstAtMax (c :: t) := by
  have hM : maxScoreL (c :: e :: t) = maxScoreL (c :: t) := by
    simp only [maxScoreL_cons]
    omega
  unfold firstAtMax
  rw [hM]
  by_cases hc : entryScore c = maxScoreL (c :: t)
  · have hp : (entryScore c == maxScoreL (c :: t)) = true := by simp [hc]
    simp [List.find?_cons, hp]
  · have hsc : entryScore c ≤ maxScoreL (c :: t) := le_maxScoreL_of_mem (List.mem_cons_self c _)
    have he : ¬ (entryScore e = maxScoreL (c :: t)) := by omega
    have hp : (entryScore c == maxScoreL (c :: t)) = false := beq_eq_false_iff_ne.mpr hc
    have hpe : (entryScore e == maxScoreL (c :: t)) = false := beq_eq_false_iff_ne.mpr he
    simp [List.find?_cons, hp, hpe]

theorem firstAtMax_cons_replace (c e : Nat × ClientData) (t : List (Nat × ClientData))
    (h : entryScore c < entryScore e) :
    firstAtMax (c :: e :: t) = firstAtMax (e :: t) := by
  have hse : entryScore e ≤ maxScoreL (e :: t) := le_maxScoreL_of_mem (List.mem_cons_self e _)
  have hM : maxScoreL (c :: e :: t) = maxScoreL (e :: t) := by
    simp only [maxScoreL_cons]
    omega
  have hc : ¬ (entryScore c = maxScoreL (e :: t)) := by omega
  have hp : (entryScore c == maxScoreL (e :: t)) = false := beq_eq_false_iff_ne.mpr hc
  unfold firstAtMax
  rw [hM]
  conv_lhs => rw [List.find?_cons]
  simp [hp]

theorem firstAtMax_cons_two (e : Nat × ClientData) (t : List (Nat × ClientData))
    (h : entryScore e = 2) : firstAtMax (e :: t) = some e :=
  firstAtMax_singleton_cons e t (by have := maxScoreL_le_two t; omega)

theorem firstAtMax_cons_cons_two (c e : Nat × ClientData) (t : List (Nat × ClientData))
    (hc : entryScore c ≤ 1) (h : entryScore e = 2) :
    firstAtMax (c :: e :: t) = some e := by
  rw [firstAtMax_cons_replace c e t (by omega)]
  exact firstAtMax_cons_two e t h

theorem bestLoop_acc_spec (opens : List Nat) (t : List (Nat × ClientData))
    (c : Nat × ClientData) (hc : entryScore c ≤ 1) :
    bestLoop opens t (some c) (entryScore c) =
      firstAtMax (c :: t.filter (entryOpen opens)) := by
  induction t generalizing c with
  | nil =>
    simp only [bestLoop, List.filter_nil]
    have hbase : maxScoreL ([] : List (Nat × ClientData)) ≤ entryScore c := by
      have h0 := entryScore_nonneg c
      have hnil : maxScoreL ([] : List (Nat × ClientData)) = -1 := rfl
      omega
    exact (firstAtMax_singleton_cons c [] hbase).symm
  | cons e t ih =>
    by_cases ho : entryOpen opens e
    · rw [List.filter_cons_of_pos ho]
      by_cases hlt : entryScore c < entryScore e
      · by_cases h2 : entryScore e = 2
        · have hbeq : (entryScore e == 2) = true := by simp [h2]
          simp only [bestLoop, ho, if_true, if_pos hlt, hbeq]
          exact (firstAtMax_cons_cons_two c e _ hc h2).symm
        · have hle : entryScore e ≤ 1 := by have := entryScore_le_two e; omega
          have hbeq : (entryScore e == 2) = false := beq_eq_false_iff_ne.mpr h2
          simp only [bestLoop, ho, if_true, if_pos hlt, hbeq, Bool.false_eq_true, if_false]
          rw [ih e hle, firstAtMax_cons_replace c e _ hlt]
      · have hle : entryScore e ≤ entryScore c := by omega
        simp only [bestLoop, ho, if_true, if_neg hlt]
        rw [ih c hc, firstAtMax_cons_drop c e _ hle]
    · rw [List.filter_cons_of_neg ho]
      simp only [bestLoop, ho, Bool.false_eq_true, if_false]
      exact ih c hc

theorem bestLoop_spec (opens : List Nat) (l : List (Nat × ClientData)) :
    bestLoop opens l none (-1) = firstAtMax (l.filter (entryOpen opens)) := by
  induction l with
  | nil => rfl
  | cons e t ih =>
    by_cases ho : entryOpen opens e
    · rw [List.filter_cons_of_pos ho]
      have hnn := entryScore_nonneg e
      have hlt : (-1 : Int) < entryScore e := by omega
      by_cases h2 : entryScore e = 2
      · have hbeq : (entryScore e == 2) = true := by simp [h2]
        simp only [bestLoop, ho, if_true, if_pos hlt, hbeq]
        exact (firstAtMax_cons_two e _ h2).symm
      · have hle : entryScore e ≤ 1 := by have := entryScore_le_two e; omega
        have hbeq : (entryScore e == 2) = false := beq_eq_false_iff_ne.mpr h2
        simp only [bestLoop, ho, if_true, if_pos hlt, hbeq, Bool.false_eq_true, if_false]
        exact bestLoop_acc_spec opens t e hle
    · rw [List.filter_cons_of_neg ho]
      simp only [bestLoop, ho, Bool.false_eq_true, if_false]
      exact ih

theorem maxScoreL_attained (l : List (Nat × ClientData)) (h : l ≠ []) :
    ∃ e ∈ l, entryScore e = maxScoreL l := by
  induction l with
  | nil => exact absurd rfl h
  | cons a t ih =>
    by_cases ht : t = []
    · subst ht
      refine ⟨a, List.mem_cons_self a _, ?_⟩
      have := entryScore_nonneg a
      rw [maxScoreL_cons]
      norm_num [maxScoreL]
      omega
    · by_cases hle : maxScoreL t ≤ entryScore a
      · refine ⟨a, List.mem_cons_self a _, ?_⟩
        rw [maxScoreL_cons]
        omega
      · obtain ⟨e, hmem, heq⟩ := ih ht
        refine ⟨e, List.mem_cons_of_mem a hmem, ?_⟩
        rw [maxScoreL_cons]
        omega

theorem firstAtMax_none_iff (l : List (Nat × ClientData)) :
    firstAtMax l = none ↔ l = [] := by
  constructor
  · intro h
    by_contra hne
    obtain ⟨e, hmem, heq⟩ := maxScoreL_attained l hne
    have hex : ∃ x, x ∈ l ∧ (fun y => entryScore y == maxScoreL l) x = true :=
      ⟨e, hmem, by simp [heq]⟩
    have hsome : (l.find? (fun y => entryScore y == maxScoreL l)).isSome :=
      List.find?_isSome.mpr hex
    rw [firstAtMax] at h
    rw [h] at hsome
    simp at hsome
  · intro h
    subst h
    rfl

/-- C5 (amended): `sendToExtension` selects, among executor entries whose
channel is open, the **first one attaining the maximal** health score where
healthy = 2, degraded = 1 and critical = 0 — critical connections are
ranked lowest but are *not* excluded — short-circuiting at the first
healthy entry; it returns false exactly when no open executor exists. -/
theorem claim_C5 (s : BrokerState) (msg : ReqMsg) :
    (sendToExtension s msg =
      match firstAtMax (s.extension.filter (entryOpen s.openConns)) with
      | some e => (true, [⟨e.2.client, Payload.reqMsg msg.url msg.options msg.id⟩])
      | none => (false, [])) ∧
    ((sendToExtension s msg).1 = false ↔
      s.extension.filter (entryOpen s.openConns) = []) := by
  have hmain : sendToExtension s msg =
      match firstAtMax (s.extension.filter (entryOpen s.openConns)) with
      | some e => (true, [⟨e.2.client, Payload.reqMsg msg.url msg.options msg.id⟩])
      | none => (false, []) := by
    unfold sendToExtension bestClient
    by_cases hemp : s.extension.isEmpty
    · have hnil : s.extension = [] := List.isEmpty_iff.mp hemp
      rw [hnil]
      simp [firstAtMax, maxScoreL]
    · rw [if_neg hemp, bestLoop_spec]
      cases hfa : firstAtMax (s.extension.filter (entryOpen s.openConns)) with
      | none => rfl
      | some e =>
        have hmem : e ∈ s.extension.filter (entryOpen s.openConns) :=
          List.mem_of_find?_eq_some hfa
        have hopen : entryOpen s.openConns e = true := (List.mem_filter.mp hmem).2
        have hmemopen : e.2.client ∈ s.openConns :=
          List.mem_of_elem_eq_true (by simpa [entryOpen, List.contains] using hopen)
        simp [hmemopen]
  refine ⟨hmain, ?_⟩
  rw [hmain]
  cases hfa : firstAtMax (s.extension.filter (entryOpen s.openConns)) with
  | none =>
    simpa using (firstAtMax_none_iff _).mp hfa
  | some e =>
    constructor
    · intro h
      simp at h
    · intro h
      rw [h] at hfa
      simp [firstAtMax] at hfa

/-- A broker state with a single open but critical executor. -/
def c5ex : BrokerState :=
  { brokerInit with
      extension := [(7, { freshClientData 7 0 with healthStatus := Health.critical })]
      openConns := [7] }

/-- C5 counterexample to the claim as stated: a critical executor is not
excluded from selection — with only an open critical executor present the
send succeeds and targets it. -/
theorem claim_C5_cex :
    (sendToExtension c5ex ⟨("u"), ("o"), ("i")⟩).1 = true ∧
    (sendToExtension c5ex ⟨("u"), ("o"), ("i")⟩).2 =
      [⟨7, Payload.reqMsg ("u") ("o") ("i")⟩] := ⟨rfl, rfl⟩

theorem claim_C4_witness :
    (pongReceive 7 hbCriticalEx).healthStatus = Health.critical ∧
    (pongReceive 7 hbCriticalEx).missedHeartbeats = 0 ∧
    ((pongReceive 7 hbCriticalEx).healthStatus = Health.healthy ↔
      (0 < hbCriticalEx.missedHeartbeats ∧ hbCriticalEx.missedHeartbeats < maxMissed)) :=
  claim_C4 1 0
    [HBEvent.ping 0, HBEvent.pongTimeout, HBEvent.ping 1, HBEvent.pongTimeout,
     HBEvent.ping 2, HBEvent.pongTimeout] 7 rfl

end Xfetch
